import Mathlib

/-!
Verification of the RTC abstraction layer of the STM32-Example repository.

Two backends are embedded:
* `F103` — the Counter backend (`uart-record-to-flash/User/Bsp/Src/rtc.c`):
  the hardware stores a raw 32-bit seconds counter split over two 16-bit
  registers `CNTH`/`CNTL`; calendar conversion goes through the C library
  (`mktime` / `localtime`).
* `F429` — the Calendar-Register backend (`record-imu-to-flash/User/Bsp/Src/rtc.c`):
  the hardware stores year/month/day/weekday/hour/min/sec natively and the
  driver derives day-of-year and weekday itself.

The C library time functions (`mktime`, `localtime`) are not part of the
repository; they are modelled from the spec (standard proleptic Gregorian
decomposition relative to the 1970-01-01 epoch).
-/

/- ### Shared calendar arithmetic -/

/-- Source: `IS_LEAP_YEAR` macro in `record-imu-to-flash/User/Bsp/Src/rtc.c`:
`((((YEAR) % 4 == 0) && ((YEAR) % 100) != 0) || ((YEAR) % 400 == 0))`. -/
def IS_LEAP_YEAR (y : Nat) : Bool :=
  (y % 4 == 0 && y % 100 != 0) || y % 400 == 0

theorem isLeapYear_iff (y : Nat) :
    IS_LEAP_YEAR y = true ↔ ((y % 4 = 0 ∧ y % 100 ≠ 0) ∨ y % 400 = 0) := by
  simp [IS_LEAP_YEAR, Bool.or_eq_true, Bool.and_eq_true]

/-- Source: `month_day_table` in `record-imu-to-flash/User/Bsp/Src/rtc.c`. -/
def month_day_table : List Nat :=
  [31, 28, 31, 30, 31, 30, 31, 31, 30, 31, 30, 31]

/-- Length of month `m` (0-based) in a year whose leap status is `leap`
(February gets the extra day). -/
def monthLen (leap : Bool) (m : Nat) : Nat :=
  month_day_table.getD m 0 + (if leap ∧ m = 1 then 1 else 0)

/-- Days before month `m` (0-based) within a year of leap status `leap`. -/
def daysBeforeMonth (leap : Bool) : Nat → Nat
  | 0 => 0
  | m + 1 => daysBeforeMonth leap m + monthLen leap m

/-- Number of days in year `y` (proleptic Gregorian). -/
def daysInYear (y : Nat) : Nat :=
  if IS_LEAP_YEAR y then 366 else 365

/-- Sum of `daysInYear` over the `n` consecutive years starting at `y`. -/
def yearSum (y : Nat) : Nat → Nat
  | 0 => 0
  | n + 1 => yearSum y n + daysInYear (y + n)

/-- Days from 1970-01-01 to `y`-01-01 (0 for `y ≤ 1970`). -/
def daysFromYear1970 (y : Nat) : Nat :=
  yearSum 1970 (y - 1970)

/-- Days from the 1970-01-01 epoch to year `y`, month `m` (0-based), day `d`
(1-based): the scalar composition underlying `mktime`. -/
def daysFromCivil (y m d : Nat) : Nat :=
  daysFromYear1970 y + daysBeforeMonth (IS_LEAP_YEAR y) m + (d - 1)

/-- Find the year containing day-offset `days` (days since `y`-01-01),
subtracting whole years while they fit; `fuel ≥ days` suffices since every
year has at least 365 days. Mirrors the year loop of a C-library `localtime`. -/
def findYear (y days : Nat) : Nat → Nat × Nat
  | 0 => (y, days)
  | fuel + 1 =>
    if days < daysInYear y then (y, days)
    else findYear (y + 1) (days - daysInYear y) fuel

/-- Find the month (0-based) containing day-of-year offset `days`,
subtracting whole months while they fit. Mirrors the month loop of a
C-library `localtime`; `fuel = 12` suffices. -/
def findMonth (leap : Bool) (m days : Nat) : Nat → Nat × Nat
  | 0 => (m, days)
  | fuel + 1 =>
    if days < monthLen leap m then (m, days)
    else findMonth leap (m + 1) (days - monthLen leap m) fuel

/-- The C `struct tm`: all fields are C `int`s. -/
structure Tm where
  tm_sec : Int
  tm_min : Int
  tm_hour : Int
  tm_mday : Int
  tm_mon : Int
  tm_year : Int
  tm_wday : Int
  tm_yday : Int
  tm_isdst : Int
  deriving DecidableEq, Repr

attribute [ext] Tm

/-- Modelled from the spec: the C library `mktime` — "converts the calendar
structure to a scalar via the inverse decomposition" (standard proleptic
Gregorian composition, 1970 epoch). The C library itself is not part of the
repository sources. Faithful on in-range fields (the verified domain). -/
def mktime (tm : Tm) : Int :=
  (daysFromCivil (1900 + tm.tm_year).toNat tm.tm_mon.toNat tm.tm_mday.toNat : Nat) * 86400
    + tm.tm_hour * 3600 + tm.tm_min * 60 + tm.tm_sec

/-- Modelled from the spec: the C library `localtime` — "converts via standard
proleptic Gregorian calendar decomposition (epoch-relative)". The C library
itself is not part of the repository sources. `tm_wday` uses the fact that
1970-01-01 was a Thursday (weekday 4 with 0 = Sunday); no timezone/DST
(`tm_isdst = 0`), as the spec assumes local representation throughout. -/
def localtime (t : Int) : Tm :=
  let s := t.toNat
  let days := s / 86400
  let rem := s % 86400
  let yr := findYear 1970 days days
  let mr := findMonth (IS_LEAP_YEAR yr.1) 0 yr.2 12
  { tm_sec := rem % 60
    tm_min := rem % 3600 / 60
    tm_hour := rem / 3600
    tm_mday := mr.2 + 1
    tm_mon := mr.1
    tm_year := (yr.1 : Int) - 1900
    tm_wday := (days + 4) % 7
    tm_yday := yr.2
    tm_isdst := 0 }

/-- A valid calendar value: fields in range, year at or after the 1970 epoch,
second at most 59, and the derived fields (`tm_wday`, `tm_yday`) consistent
with year/month/day, `tm_isdst` clear (no DST, per the system assumption). -/
def validTm (tm : Tm) : Prop :=
  70 ≤ tm.tm_year ∧
  0 ≤ tm.tm_mon ∧ tm.tm_mon ≤ 11 ∧
  1 ≤ tm.tm_mday ∧
  tm.tm_mday ≤ (monthLen (IS_LEAP_YEAR (1900 + tm.tm_year).toNat) tm.tm_mon.toNat : Nat) ∧
  0 ≤ tm.tm_hour ∧ tm.tm_hour ≤ 23 ∧
  0 ≤ tm.tm_min ∧ tm.tm_min ≤ 59 ∧
  0 ≤ tm.tm_sec ∧ tm.tm_sec ≤ 59 ∧
  tm.tm_wday = ((daysFromCivil (1900 + tm.tm_year).toNat tm.tm_mon.toNat tm.tm_mday.toNat + 4) % 7 : Nat) ∧
  tm.tm_yday = (daysBeforeMonth (IS_LEAP_YEAR (1900 + tm.tm_year).toNat) tm.tm_mon.toNat : Nat) + tm.tm_mday - 1 ∧
  tm.tm_isdst = 0

instance (tm : Tm) : Decidable (validTm tm) := by
  unfold validTm; infer_instance

/- ### Calendar arithmetic lemmas -/

theorem daysInYear_ge (y : Nat) : 365 ≤ daysInYear y := by
  unfold daysInYear; split <;> omega

theorem yearSum_succ (y n : Nat) :
    yearSum y (n + 1) = yearSum y n + daysInYear (y + n) := rfl

theorem daysFromYear1970_succ (y : Nat) (h : 1970 ≤ y) :
    daysFromYear1970 (y + 1) = daysFromYear1970 y + daysInYear y := by
  unfold daysFromYear1970
  have h1 : y + 1 - 1970 = (y - 1970) + 1 := by omega
  rw [h1, yearSum_succ]
  have h2 : 1970 + (y - 1970) = y := by omega
  rw [h2]

theorem daysFromYear1970_window (a b : Nat) (ha : 1970 ≤ a) (hab : a < b) :
    daysFromYear1970 a + daysInYear a ≤ daysFromYear1970 b := by
  induction b with
  | zero => omega
  | succ b ih =>
    rcases Nat.lt_or_ge a b with hb | hb
    · have h1 := ih hb
      have hstep := daysFromYear1970_succ b (by omega)
      omega
    · have hab' : a = b := by omega
      subst hab'
      rw [daysFromYear1970_succ a ha]

theorem yearSum_succ_left (y n : Nat) :
    yearSum y (n + 1) = daysInYear y + yearSum (y + 1) n := by
  induction n generalizing y with
  | zero => simp [yearSum_succ, yearSum]
  | succ n ih =>
    rw [yearSum_succ, ih y, yearSum_succ]
    have e : y + 1 + n = y + (n + 1) := by omega
    rw [e]
    omega

theorem findYear_spec (fuel y days : Nat) (h : days ≤ fuel) :
    ∃ n r, days = yearSum y n + r ∧ r < daysInYear (y + n) ∧
      findYear y days fuel = (y + n, r) := by
  induction fuel generalizing y days with
  | zero =>
    have h365 := daysInYear_ge y
    refine ⟨0, days, by simp [yearSum], ?_, by simp [findYear]⟩
    simp only [Nat.add_zero]
    omega
  | succ fuel ih =>
    by_cases hlt : days < daysInYear y
    · refine ⟨0, days, by simp [yearSum], ?_, by simp [findYear, hlt]⟩
      simpa using hlt
    · have h365 := daysInYear_ge y
      obtain ⟨n, r, h1, h2, h3⟩ := ih (y + 1) (days - daysInYear y) (by omega)
      have e : y + 1 + n = y + (n + 1) := by omega
      rw [e] at h2 h3
      refine ⟨n + 1, r, ?_, h2, ?_⟩
      · rw [yearSum_succ_left]; omega
      · simp only [findYear, if_neg hlt, h3]

theorem yearSum_eq_daysFromYear1970 (n : Nat) :
    yearSum 1970 n = daysFromYear1970 (1970 + n) := by
  have h : 1970 + n - 1970 = n := by omega
  unfold daysFromYear1970
  rw [h]

theorem findYear_unique (fuel y days r : Nat) (hy : 1970 ≤ y)
    (hd : days = daysFromYear1970 y + r) (hr : r < daysInYear y)
    (hfuel : days ≤ fuel) :
    findYear 1970 days fuel = (y, r) := by
  obtain ⟨n, r', h1, h2, h3⟩ := findYear_spec fuel 1970 days hfuel
  rw [yearSum_eq_daysFromYear1970] at h1
  rcases Nat.lt_trichotomy (1970 + n) y with hlt | heq | hgt
  · exfalso
    have hw := daysFromYear1970_window (1970 + n) y (by omega) hlt
    have h4 : daysFromYear1970 y + r = daysFromYear1970 (1970 + n) + r' := by
      rw [← hd, h1]
    omega
  · rw [h3, heq]
    rw [heq] at h1
    have hrr : r' = r := by omega
    rw [hrr]
  · have := daysFromYear1970_window y (1970 + n) hy hgt
    rw [hd] at h1
    omega

set_option maxRecDepth 4000 in
theorem findMonth_spec_true :
    ∀ r < 366, (findMonth true 0 r 12).1 < 12 ∧
      r = daysBeforeMonth true (findMonth true 0 r 12).1 + (findMonth true 0 r 12).2 ∧
      (findMonth true 0 r 12).2 < monthLen true (findMonth true 0 r 12).1 := by decide

set_option maxRecDepth 4000 in
theorem findMonth_spec_false :
    ∀ r < 365, (findMonth false 0 r 12).1 < 12 ∧
      r = daysBeforeMonth false (findMonth false 0 r 12).1 + (findMonth false 0 r 12).2 ∧
      (findMonth false 0 r 12).2 < monthLen false (findMonth false 0 r 12).1 := by decide

theorem findMonth_unique_true :
    ∀ m < 12, ∀ d0 < 31, d0 < monthLen true m →
      findMonth true 0 (daysBeforeMonth true m + d0) 12 = (m, d0) := by decide

theorem findMonth_unique_false :
    ∀ m < 12, ∀ d0 < 31, d0 < monthLen false m →
      findMonth false 0 (daysBeforeMonth false m + d0) 12 = (m, d0) := by decide

theorem daysBeforeMonth_succ_le_true :
    ∀ m < 12, daysBeforeMonth true (m + 1) ≤ 366 := by decide

theorem daysBeforeMonth_succ_le_false :
    ∀ m < 12, daysBeforeMonth false (m + 1) ≤ 365 := by decide

theorem monthLen_le12_true : ∀ m < 12, monthLen true m ≤ 31 := by decide

theorem monthLen_le12_false : ∀ m < 12, monthLen false m ≤ 31 := by decide

theorem daysInYear_eq (y : Nat) :
    daysInYear y = if IS_LEAP_YEAR y then 366 else 365 := rfl

theorem findMonth_join (leap : Bool) (r : Nat) (hr : r < 366)
    (hr2 : leap = false → r < 365) :
    (findMonth leap 0 r 12).1 < 12 ∧
      r = daysBeforeMonth leap (findMonth leap 0 r 12).1 + (findMonth leap 0 r 12).2 ∧
      (findMonth leap 0 r 12).2 < monthLen leap (findMonth leap 0 r 12).1 := by
  cases leap
  · exact findMonth_spec_false r (hr2 rfl)
  · exact findMonth_spec_true r hr

theorem mktime_localtime (t : Int) (h : 0 ≤ t) : mktime (localtime t) = t := by
  obtain ⟨n, r, h1, h2, h3⟩ :=
    findYear_spec (t.toNat / 86400) 1970 (t.toNat / 86400) le_rfl
  rw [yearSum_eq_daysFromYear1970] at h1
  have hle : r < 366 ∧ (IS_LEAP_YEAR (1970 + n) = false → r < 365) := by
    rw [daysInYear_eq] at h2
    rcases hiq : IS_LEAP_YEAR (1970 + n) <;> rw [hiq] at h2 <;> simp at h2 ⊢ <;> omega
  obtain ⟨hm1, hm2, hm3⟩ := findMonth_join (IS_LEAP_YEAR (1970 + n)) r hle.1 hle.2
  simp only [mktime, localtime, h3]
  have hY : (1900 + (((1970 + n : Nat) : Int) - 1900)).toNat = 1970 + n := by omega
  rw [hY]
  simp only [Int.toNat_natCast]
  have hD : ((((findMonth (IS_LEAP_YEAR (1970 + n)) 0 r 12).2 : Int)) + 1).toNat
      = (findMonth (IS_LEAP_YEAR (1970 + n)) 0 r 12).2 + 1 := by omega
  rw [hD]
  simp only [daysFromCivil]
  omega

theorem daysBeforeMonth_succ (leap : Bool) (m : Nat) :
    daysBeforeMonth leap (m + 1) = daysBeforeMonth leap m + monthLen leap m := rfl

theorem findMonth_unique_any (leap : Bool) :
    ∀ m < 12, ∀ d0 < 31, d0 < monthLen leap m →
      findMonth leap 0 (daysBeforeMonth leap m + d0) 12 = (m, d0) := by
  cases leap
  · exact findMonth_unique_false
  · exact findMonth_unique_true

theorem monthLen_le12_any (leap : Bool) : ∀ m < 12, monthLen leap m ≤ 31 := by
  cases leap
  · exact monthLen_le12_false
  · exact monthLen_le12_true

theorem daysBeforeMonth_succ_le_any (leap : Bool) :
    ∀ m < 12, daysBeforeMonth leap (m + 1) ≤ (if leap then 366 else 365) := by
  cases leap
  · simpa using daysBeforeMonth_succ_le_false
  · simpa using daysBeforeMonth_succ_le_true

theorem localtime_mktime (tm : Tm) (h : validTm tm) : localtime (mktime tm) = tm := by
  obtain ⟨hy, hm0, hm1, hd1, hd2, hh0, hh1, hmi0, hmi1, hs0, hs1, hw, hyd, hdst⟩ := h
  set Y := (1900 + tm.tm_year).toNat with hYdef
  set M := tm.tm_mon.toNat with hMdef
  set D := tm.tm_mday.toNat with hDdef
  set leap := IS_LEAP_YEAR Y with hLdef
  have hYge : 1970 ≤ Y := by omega
  have hMle : M ≤ 11 := by omega
  have hD1 : 1 ≤ D := by omega
  have hDle : D ≤ monthLen leap M := by omega
  have hmlle : monthLen leap M ≤ 31 := monthLen_le12_any leap M (by omega)
  have hdbm : daysBeforeMonth leap (M + 1) ≤ daysInYear Y := by
    rw [daysInYear_eq, ← hLdef]
    exact daysBeforeMonth_succ_le_any leap M (by omega)
  have hr_lt : daysBeforeMonth leap M + (D - 1) < daysInYear Y := by
    rw [daysBeforeMonth_succ] at hdbm
    omega
  have hsplit : (mktime tm).toNat = daysFromCivil Y M D * 86400 +
      (tm.tm_hour.toNat * 3600 + tm.tm_min.toNat * 60 + tm.tm_sec.toNat) := by
    simp only [mktime, ← hYdef, ← hMdef, ← hDdef]
    omega
  have hdays : (mktime tm).toNat / 86400 = daysFromCivil Y M D := by
    rw [hsplit]
    omega
  have hrem : (mktime tm).toNat % 86400 =
      tm.tm_hour.toNat * 3600 + tm.tm_min.toNat * 60 + tm.tm_sec.toNat := by
    rw [hsplit]
    omega
  have hfy : findYear 1970 (daysFromCivil Y M D) (daysFromCivil Y M D) =
      (Y, daysBeforeMonth leap M + (D - 1)) := by
    refine findYear_unique _ Y _ _ hYge ?_ hr_lt le_rfl
    simp only [daysFromCivil, ← hLdef]
    omega
  have hfm : findMonth leap 0 (daysBeforeMonth leap M + (D - 1)) 12 = (M, D - 1) :=
    findMonth_unique_any leap M (by omega) (D - 1) (by omega) (by omega)
  simp only [localtime, hdays, hrem, hfy, hfm]
  apply Tm.ext <;> dsimp only <;> omega

/- ### Counter backend: `uart-record-to-flash/User/Bsp/Src/rtc.c` (STM32F1) -/

namespace F103

/-- Source: `#define RTC_USE_LSE 0x8800` (external low-speed clock marker). -/
def RTC_USE_LSE : Nat := 0x8800

/-- Source: `#define RTC_USE_LSI 0x8801` (internal low-speed clock marker). -/
def RTC_USE_LSI : Nat := 0x8801

/-- The two 16-bit counter registers `RTC->CNTH` / `RTC->CNTL`; writes keep
only the low 16 bits (the hardware registers are 16 bits wide). -/
structure CounterRegs where
  CNTH : Nat
  CNTL : Nat
  deriving DecidableEq, Repr

/-- Register effect of `rtc_set_time_t`:
`RTC->CNTL = *_time & 0xffff; RTC->CNTH = *_time >> 16;`.
`& 0xffff` on two's complement is `% 65536` (`Int.emod`); `>> 16` is an
arithmetic shift, i.e. floor division (`/` on `Int` is `Int.ediv`, which
floors for a positive divisor); each 16-bit hardware register retains
the low 16 bits of the written value. The trailing RTOFF spin-wait of the
function delays the return only; it is modelled by `rtc_set_time_t_run`. -/
def rtc_set_time_t (t : Int) : CounterRegs :=
  { CNTH := ((t / 65536) % 65536).toNat
    CNTL := (t % 65536).toNat }

/-- Source: `time` (the C-library hook): returns
`(RTC->CNTH << 16) | (RTC->CNTL & 0xffff)`. The two operands of `|` occupy
disjoint bit ranges (`CNTH < 2^16` shifted left 16, versus 16 low bits), so
the bitwise or is addition. -/
def time (regs : CounterRegs) : Int :=
  ((regs.CNTH % 65536) * 65536 + regs.CNTL % 65536 : Nat)

/-- Source: `rtc_get_time_t` returns `time(NULL)`. -/
def rtc_get_time_t (regs : CounterRegs) : Int := time regs

/-- Source: `rtc_get_time` returns `localtime(time(NULL))`. -/
def rtc_get_time (regs : CounterRegs) : Tm := localtime (time regs)

/-- Source: `rtc_set_time` computes `mktime(_tm)` and calls `rtc_set_time_t`. -/
def rtc_set_time (tm : Tm) : CounterRegs := rtc_set_time_t (mktime tm)

/-- The two 16-bit alarm registers `RTC->ALRH` / `RTC->ALRL`. -/
structure AlarmRegs where
  ALRH : Nat
  ALRL : Nat
  deriving DecidableEq, Repr

/-- Register effect of `rtc_set_alarm_t`:
`RTC->ALRL = *_time & 0xffff; RTC->ALRH = *_time >> 16;` (same conventions
as `rtc_set_time_t`). -/
def rtc_set_alarm_t (t : Int) : AlarmRegs :=
  { ALRH := ((t / 65536) % 65536).toNat
    ALRL := (t % 65536).toNat }

/-- Source: `rtc_get_alarm_t` returns
`(RTC->ALRH << 16) | (RTC->ALRL & 0xffff)` (disjoint bit ranges, so `+`). -/
def rtc_get_alarm_t (regs : AlarmRegs) : Int :=
  ((regs.ALRH % 65536) * 65536 + regs.ALRL % 65536 : Nat)

/-- The spin-wait `while (!__HAL_RTC_ALARM_GET_FLAG(&rtc_handle, RTC_FLAG_RTOFF));`
at the end of `rtc_set_time_t` / `rtc_set_alarm_t`. `rtoff i` is the value of
the RTOFF status bit at the `i`-th read. The C loop has no retry bound; the
`fuel` parameter only makes the recursion well-founded: the C call returns
within some bound exactly when some fuel suffices. Returns the index of the
first read observing the flag set. -/
def spinRTOFF (rtoff : Nat → Bool) : Nat → Nat → Option Nat
  | _, 0 => none
  | i, fuel + 1 => if rtoff i then some i else spinRTOFF rtoff (i + 1) fuel

/-- `rtc_set_time_t` including its terminal RTOFF spin-wait: returns the
written registers when the spin exits within `fuel` flag reads, `none`
otherwise (the C function would still be spinning). -/
def rtc_set_time_t_run (t : Int) (rtoff : Nat → Bool) (fuel : Nat) :
    Option CounterRegs :=
  match spinRTOFF rtoff 0 fuel with
  | some _ => some (rtc_set_time_t t)
  | none => none

/-- `rtc_set_alarm_t` including its terminal RTOFF spin-wait. -/
def rtc_set_alarm_t_run (t : Int) (rtoff : Nat → Bool) (fuel : Nat) :
    Option AlarmRegs :=
  match spinRTOFF rtoff 0 fuel with
  | some _ => some (rtc_set_alarm_t t)
  | none => none

/-- The LSE probe loop of `HAL_RTC_MspInit`:
`while (retry && ((RCC->BDCR & 0X02) == 0)) { retry--; HAL_Delay(5); }`.
`ready i` is the LSE-ready bit at the `i`-th read of the loop condition.
Returns `(number of HAL_Delay(5) calls executed, retry reached 0)`. -/
def probe (ready : Nat → Bool) : Nat → Nat → Nat × Bool
  | 0, _ => (0, true)
  | retry + 1, i =>
    if ready i then (0, false)
    else
      let p := probe ready retry (i + 1)
      (p.1 + 1, p.2)

/-- Observable outcome of `rtc_init`. -/
structure InitResult where
  probeDelays : Nat
  markerWritten : Nat
  timeReset : Bool
  regs : CounterRegs
  deriving DecidableEq, Repr

/-- Source: `HAL_RTC_MspInit` — runs the LSE probe loop starting from
`retry = 200`; on exhaustion (`retry == 0`) selects LSI and writes
`RTC_USE_LSI` to backup register DR1, otherwise selects LSE and writes
`RTC_USE_LSE`. Returns (delay count, marker value written). -/
def HAL_RTC_MspInit (ready : Nat → Bool) : Nat × Nat :=
  let p := probe ready 200 0
  (p.1, if p.2 then RTC_USE_LSI else RTC_USE_LSE)

/-- Source: `rtc_init` — reads `bkp_flag` from backup register DR1 *before*
`HAL_RTC_Init`; `HAL_RTC_Init` invokes `HAL_RTC_MspInit` (the HAL calls the
Msp hook on first initialization, when the handle state is reset, which is
the case on boot), so the probe loop and the marker write happen on every
boot; then, only when the pre-read flag matches neither `RTC_USE_LSE` nor
`RTC_USE_LSI`, resets the time to the epoch with `rtc_set_time_t(0)`. -/
def rtc_init (dr1 : Nat) (ready : Nat → Bool) (prior : CounterRegs) :
    InitResult :=
  let msp := HAL_RTC_MspInit ready
  if dr1 ≠ RTC_USE_LSE ∧ dr1 ≠ RTC_USE_LSI then
    { probeDelays := msp.1, markerWritten := msp.2, timeReset := true
      regs := rtc_set_time_t 0 }
  else
    { probeDelays := msp.1, markerWritten := msp.2, timeReset := false
      regs := prior }

end F103

/- ### Calendar-Register backend: `record-imu-to-flash/User/Bsp/Src/rtc.c` (STM32F4) -/

namespace F429

/-- Source: `RTC_DateTypeDef` — `uint8_t` fields `Year` (0–99), `Month`
(1–12), `Date` (1–31), `WeekDay` (1–7). -/
structure RTC_DateTypeDef where
  Year : Nat
  Month : Nat
  Date : Nat
  WeekDay : Nat
  deriving DecidableEq, Repr

/-- Source: `RTC_TimeTypeDef` — `uint8_t` fields. -/
structure RTC_TimeTypeDef where
  Hours : Nat
  Minutes : Nat
  Seconds : Nat
  deriving DecidableEq, Repr

/-- The RTC hardware calendar state: date and time registers plus the
persisted DST store-operation bit. -/
structure RtcState where
  date : RTC_DateTypeDef
  time : RTC_TimeTypeDef
  dstStoreOp : Bool
  deriving DecidableEq, Repr

/-- Outcome of `rtc_set_time`: the hardware state written and whether the
one-second `HAL_Delay(1000)` executed. -/
structure SetTimeResult where
  state : RtcState
  delayedOneSecond : Bool
  deriving DecidableEq, Repr

/-- Source: `rtc_set_time` — field mapping
`Year = tm_year - 100; Month = tm_mon + 1; Date = tm_mday;
WeekDay = tm_wday + 1; Hours/Minutes/Seconds` copied; `uint8_t` assignment
truncates mod 256; if `tm_sec == 60` the stored second becomes 59 and
`HAL_Delay(1000)` runs; `tm_isdst` nonzero sets the DST store-operation bit,
zero clears it. -/
def rtc_set_time (tm : Tm) : SetTimeResult :=
  { state :=
      { date :=
          { Year := ((tm.tm_year - 100) % 256).toNat
            Month := ((tm.tm_mon + 1) % 256).toNat
            Date := (tm.tm_mday % 256).toNat
            WeekDay := ((tm.tm_wday + 1) % 256).toNat }
        time :=
          { Hours := (tm.tm_hour % 256).toNat
            Minutes := (tm.tm_min % 256).toNat
            Seconds := if tm.tm_sec = 60 then 59 else (tm.tm_sec % 256).toNat }
        dstStoreOp := tm.tm_isdst != 0 }
    delayedOneSecond := tm.tm_sec = 60 }

/-- Source: `rtc_get_time` — reads the hardware registers and rebuilds the
*static* `struct tm now_time`. `tm_yday` is accumulated with `+=` onto the
previous contents of the static field (`prev_yday`), never reset: the month
loop `for (i = 0; i < tm_mon; ++i) now_time.tm_yday += month_day_table[i];`
plus one more day when `tm_mon >= 2` and `IS_LEAP_YEAR(1900 + tm_year)`.
`tm_isdst` reflects the DST store-operation bit (nonzero when set). -/
def rtc_get_time (prev_yday : Int) (s : RtcState) : Tm :=
  let tm_year : Int := (s.date.Year : Int) + 100
  let tm_mon : Int := (s.date.Month : Int) - 1
  let yday0 : Int :=
    prev_yday + ((List.range tm_mon.toNat).map
      (fun i => (month_day_table.getD i 0 : Int))).sum
  let yday : Int :=
    if 2 ≤ tm_mon ∧ IS_LEAP_YEAR (1900 + tm_year).toNat then yday0 + 1 else yday0
  { tm_year := tm_year
    tm_mon := tm_mon
    tm_mday := s.date.Date
    tm_wday := (s.date.WeekDay : Int) - 1
    tm_yday := yday
    tm_isdst := if s.dstStoreOp then 1 else 0
    tm_hour := s.time.Hours
    tm_min := s.time.Minutes
    tm_sec := s.time.Seconds }

/-- Source: the `time` C-library hook of this backend:
`time_t now_time = mktime(rtc_get_time());`. -/
def time (prev_yday : Int) (s : RtcState) : Int :=
  mktime (rtc_get_time prev_yday s)

/-- Source: `rtc_get_week` — Kim-Larsson-family weekday formula; January and
February are treated as months 13/14 of the previous year
(`if (month < 3) { month += 12; --year; }`), `year >> 2` is `year / 4`;
result 0 = Sunday … 6 = Saturday. All C arithmetic here is on promoted
`int`s and stays nonnegative on the claim's domain (dates at or after March
of year 0), where this Nat translation coincides. -/
def rtc_get_week (year month day : Nat) : Nat :=
  let y := if month < 3 then year - 1 else year
  let m := if month < 3 then month + 12 else month
  (day + 1 + 2 * m + 3 * (m + 1) / 5 + y + y / 4 - y / 100 + y / 400) % 7

end F429

/-- Modelled from the spec: the "reference proleptic-Gregorian weekday
calculation" the spec compares `rtc_get_week` against — day count since the
1970-01-01 epoch (a Thursday, weekday 4 with 0 = Sunday) reduced mod 7.
`month` is 1-based here, matching `rtc_get_week`'s argument convention. -/
def refWeekday (year month day : Nat) : Nat :=
  (daysFromCivil year (month - 1) day + 4) % 7

/- ### Spin-wait lemmas (Counter backend) -/

theorem spinRTOFF_some_of (rtoff : Nat → Bool) (i n : Nat)
    (h : rtoff (i + n) = true) : (F103.spinRTOFF rtoff i (n + 1)).isSome := by
  induction n generalizing i with
  | zero =>
    simp only [Nat.add_zero] at h
    simp [F103.spinRTOFF, h]
  | succ n ih =>
    by_cases hi : rtoff i
    · simp [F103.spinRTOFF, hi]
    · have h' : rtoff (i + 1 + n) = true := by
        have e : i + 1 + n = i + (n + 1) := by omega
        rw [e]; exact h
      simpa [F103.spinRTOFF, hi] using ih (i + 1) h'

theorem spinRTOFF_flag_of (rtoff : Nat → Bool) (fuel : Nat) :
    ∀ i j, F103.spinRTOFF rtoff i fuel = some j → rtoff j = true := by
  induction fuel with
  | zero => intro i j h; simp [F103.spinRTOFF] at h
  | succ fuel ih =>
    intro i j h
    by_cases hi : rtoff i
    · simp [F103.spinRTOFF, hi] at h
      rw [← h]; exact hi
    · simp only [F103.spinRTOFF, if_neg hi] at h
      exact ih (i + 1) j h

theorem spinRTOFF_terminates_iff (rtoff : Nat → Bool) :
    (∃ fuel, (F103.spinRTOFF rtoff 0 fuel).isSome) ↔ (∃ n, rtoff n = true) := by
  constructor
  · rintro ⟨fuel, hf⟩
    obtain ⟨j, hj⟩ := Option.isSome_iff_exists.mp hf
    exact ⟨j, spinRTOFF_flag_of rtoff fuel 0 j hj⟩
  · rintro ⟨n, hn⟩
    exact ⟨n + 1, spinRTOFF_some_of rtoff 0 n (by simpa using hn)⟩

/- ### Claim theorems: C10, C7, C8 -/

/-- C10: the Counter-backend set interface stores only the low 32 bits of the
supplied `time_t` (low 16 bits in `CNTL`, next 16 in `CNTH`), so a subsequent
`time()` read returns `t mod 2^32`; the set/get round-trip is exact precisely
when `0 ≤ t < 2^32`; the same truncation applies to `rtc_set_alarm_t`. -/
theorem c10_counter_truncation (t : Int) :
    F103.time (F103.rtc_set_time_t t) = t % 4294967296 ∧
    F103.rtc_get_alarm_t (F103.rtc_set_alarm_t t) = t % 4294967296 ∧
    (F103.time (F103.rtc_set_time_t t) = t ↔ 0 ≤ t ∧ t < 4294967296) := by
  refine ⟨?_, ?_, ?_⟩
  · simp only [F103.time, F103.rtc_set_time_t]
    omega
  · simp only [F103.rtc_get_alarm_t, F103.rtc_set_alarm_t]
    omega
  · simp only [F103.time, F103.rtc_set_time_t]
    constructor
    · intro h
      omega
    · intro h
      omega

/-- C7: on the Counter backend, for every timestamp representable in the
32-bit counter, `rtc_set_alarm_t` followed by `rtc_get_alarm_t` returns
exactly the value that was split into the two 16-bit alarm registers. -/
theorem c7_alarm_roundtrip (t : Int) (h0 : 0 ≤ t) (h1 : t < 4294967296) :
    F103.rtc_get_alarm_t (F103.rtc_set_alarm_t t) = t := by
  simp only [F103.rtc_get_alarm_t, F103.rtc_set_alarm_t]
  omega

/-- Witness for C7 at the timestamp of 2024-06-01 12:00:00. -/
theorem c7_alarm_roundtrip_witness :
    F103.rtc_get_alarm_t (F103.rtc_set_alarm_t 1717243200) = 1717243200 :=
  c7_alarm_roundtrip 1717243200 (by decide) (by decide)

/-- C8: the RTOFF spin-wait ending `rtc_set_time_t` and `rtc_set_alarm_t`
has no retry bound: each call terminates (some fuel makes the run return)
iff the RTOFF status bit is eventually read set, and under that hypothesis
the call returns with the registers written. -/
theorem c8_spin_unbounded (t : Int) (rtoff : Nat → Bool) :
    ((∃ fuel, (F103.rtc_set_time_t_run t rtoff fuel).isSome) ↔
      (∃ n, rtoff n = true)) ∧
    ((∃ fuel, (F103.rtc_set_alarm_t_run t rtoff fuel).isSome) ↔
      (∃ n, rtoff n = true)) ∧
    ((∃ n, rtoff n = true) →
      (∃ fuel, F103.rtc_set_time_t_run t rtoff fuel =
        some (F103.rtc_set_time_t t)) ∧
      (∃ fuel, F103.rtc_set_alarm_t_run t rtoff fuel =
        some (F103.rtc_set_alarm_t t))) := by
  have hrun : ∀ fuel, (F103.rtc_set_time_t_run t rtoff fuel).isSome =
      (F103.spinRTOFF rtoff 0 fuel).isSome := by
    intro fuel
    unfold F103.rtc_set_time_t_run
    rcases F103.spinRTOFF rtoff 0 fuel with _ | j <;> rfl
  have hrun2 : ∀ fuel, (F103.rtc_set_alarm_t_run t rtoff fuel).isSome =
      (F103.spinRTOFF rtoff 0 fuel).isSome := by
    intro fuel
    unfold F103.rtc_set_alarm_t_run
    rcases F103.spinRTOFF rtoff 0 fuel with _ | j <;> rfl
  refine ⟨?_, ?_, ?_⟩
  · simp only [hrun]
    exact spinRTOFF_terminates_iff rtoff
  · simp only [hrun2]
    exact spinRTOFF_terminates_iff rtoff
  · intro hev
    obtain ⟨fuel, hf⟩ := (spinRTOFF_terminates_iff rtoff).mpr hev
    obtain ⟨j, hj⟩ := Option.isSome_iff_exists.mp hf
    constructor
    · exact ⟨fuel, by unfold F103.rtc_set_time_t_run; rw [hj]⟩
    · exact ⟨fuel, by unfold F103.rtc_set_alarm_t_run; rw [hj]⟩

/-- Witness for C8: with the RTOFF flag always set, the set operation
returns at once with the counter written. -/
theorem c8_spin_unbounded_witness :
    ∃ fuel, F103.rtc_set_time_t_run 0 (fun _ => true) fuel =
      some (F103.rtc_set_time_t 0) :=
  ((c8_spin_unbounded 0 (fun _ => true)).2.2 ⟨0, rfl⟩).1

/- ### Claim theorems: C2, C3 -/

set_option maxRecDepth 8000 in
/-- C2 counterexample: with the valid marker `RTC_USE_LSI` persisted and an
LSE oscillator that never becomes ready, `rtc_init` still runs the full
probe loop (200 `HAL_Delay(5)` calls — an observable probe delay) and
re-persists the marker: the probe loop lives in `HAL_RTC_MspInit`, which
`HAL_RTC_Init` invokes on every boot regardless of the marker, refuting the
claim that a valid marker suppresses the probe. -/
theorem c2_counterexample :
    (F103.rtc_init F103.RTC_USE_LSI (fun _ => false) ⟨0, 0⟩).probeDelays = 200 ∧
    (F103.rtc_init F103.RTC_USE_LSI (fun _ => false) ⟨0, 0⟩).markerWritten =
      F103.RTC_USE_LSI ∧
    ¬(F103.rtc_init F103.RTC_USE_LSI (fun _ => false) ⟨0, 0⟩).probeDelays = 0 := by
  refine ⟨?_, ?_, ?_⟩ <;> decide

/-- C2 (amended): the marker gates only the time reset: a valid marker
(`RTC_USE_LSE` or `RTC_USE_LSI`) means the stored time is not reset; any
other marker value resets the clock to the epoch (counter 0). The probe
loop runs inside `HAL_RTC_MspInit` on every init regardless of the marker
(exiting without delay only when the oscillator already reports ready), and
one of the two valid tags is persisted on every init. -/
theorem c2_marker_gates_reset_only (dr1 : Nat) (ready : Nat → Bool)
    (prior : F103.CounterRegs) :
    ((dr1 = F103.RTC_USE_LSE ∨ dr1 = F103.RTC_USE_LSI) →
      (F103.rtc_init dr1 ready prior).timeReset = false ∧
      (F103.rtc_init dr1 ready prior).regs = prior) ∧
    (¬(dr1 = F103.RTC_USE_LSE ∨ dr1 = F103.RTC_USE_LSI) →
      (F103.rtc_init dr1 ready prior).timeReset = true ∧
      F103.time (F103.rtc_init dr1 ready prior).regs = 0) ∧
    ((F103.rtc_init dr1 ready prior).markerWritten = F103.RTC_USE_LSE ∨
      (F103.rtc_init dr1 ready prior).markerWritten = F103.RTC_USE_LSI) ∧
    (ready 0 = true → (F103.rtc_init dr1 ready prior).probeDelays = 0) := by
  refine ⟨?_, ?_, ?_, ?_⟩
  · intro hvalid
    have hcond : ¬(dr1 ≠ F103.RTC_USE_LSE ∧ dr1 ≠ F103.RTC_USE_LSI) := by
      tauto
    simp [F103.rtc_init, hcond]
  · intro hinvalid
    have hcond : dr1 ≠ F103.RTC_USE_LSE ∧ dr1 ≠ F103.RTC_USE_LSI := by
      tauto
    refine ⟨by simp [F103.rtc_init, hcond], ?_⟩
    have hregs : (F103.rtc_init dr1 ready prior).regs = F103.rtc_set_time_t 0 := by
      simp [F103.rtc_init, hcond]
    rw [hregs]
    decide
  · unfold F103.rtc_init F103.HAL_RTC_MspInit
    rcases hp : (F103.probe ready 200 0).2 <;> split <;> simp [hp]
  · intro hr
    unfold F103.rtc_init F103.HAL_RTC_MspInit
    have hp : F103.probe ready 200 0 = (0, false) := by
      unfold F103.probe
      rw [hr]
      simp
    split <;> simp [hp]

/-- Witness for C2: a valid marker leaves the time alone; an invalid marker
resets it. -/
theorem c2_marker_gates_reset_only_witness :
    (F103.rtc_init F103.RTC_USE_LSE (fun _ => true) ⟨1, 2⟩).timeReset = false ∧
    (F103.rtc_init 0 (fun _ => true) ⟨1, 2⟩).timeReset = true :=
  ⟨((c2_marker_gates_reset_only F103.RTC_USE_LSE (fun _ => true) ⟨1, 2⟩).1
      (Or.inl rfl)).1,
   ((c2_marker_gates_reset_only 0 (fun _ => true) ⟨1, 2⟩).2.1 (by decide)).1⟩

/-- C3 (code bug): the Calendar-backend `rtc_get_time` accumulates
`tm_yday` into the static `now_time` with `+=`, never resetting it. With
the hardware holding 2024-03-01, the first call (static field still 0)
returns day-of-year 60 as the claim states, but the second call returns
120; with 2023-03-01 the first call returns 59. -/
theorem c3_yday_static_accumulation :
    (F429.rtc_get_time 0
      { date := { Year := 24, Month := 3, Date := 1, WeekDay := 5 }
        time := { Hours := 0, Minutes := 0, Seconds := 0 }
        dstStoreOp := false }).tm_yday = 60 ∧
    (F429.rtc_get_time
      ((F429.rtc_get_time 0
        { date := { Year := 24, Month := 3, Date := 1, WeekDay := 5 }
          time := { Hours := 0, Minutes := 0, Seconds := 0 }
          dstStoreOp := false }).tm_yday)
      { date := { Year := 24, Month := 3, Date := 1, WeekDay := 5 }
        time := { Hours := 0, Minutes := 0, Seconds := 0 }
        dstStoreOp := false }).tm_yday = 120 ∧
    (F429.rtc_get_time 0
      { date := { Year := 23, Month := 3, Date := 1, WeekDay := 3 }
        time := { Hours := 0, Minutes := 0, Seconds := 0 }
        dstStoreOp := false }).tm_yday = 59 := by
  decide

/- ### Claim theorems: C5, C6 -/

/-- C5 counterexample: on the Counter backend a write whose second field is
60 is passed through `mktime`, which folds the leap second into the next
minute: for 2024-06-01 12:00:60 the stored counter reads back with second 0
(12:01:00), not 59, and the Counter-backend `rtc_set_time` contains no
delay call — refuting the claim that the 59-substitution and one-second
delay hold for the write operation of both backends. -/
theorem c5_counterexample :
    (F103.rtc_get_time (F103.rtc_set_time
      { tm_sec := 60, tm_min := 0, tm_hour := 12, tm_mday := 1, tm_mon := 5
        tm_year := 124, tm_wday := 6, tm_yday := 152, tm_isdst := 0 })).tm_sec
      = 0 ∧
    (F103.rtc_get_time (F103.rtc_set_time
      { tm_sec := 60, tm_min := 0, tm_hour := 12, tm_mday := 1, tm_mon := 5
        tm_year := 124, tm_wday := 6, tm_yday := 152, tm_isdst := 0 })).tm_min
      = 1 := by
  refine ⟨?_, ?_⟩ <;> decide

/-- C5 (amended): the leap-second policy is implemented by the
Calendar-Register backend only: there a write with second field 60 stores
59, sets the one-second-delay flag, and stores the remaining fields as
given (up to the `uint8` register mapping). On the Counter backend the
write goes through `mktime`, which normalizes second 60 into second 0 of
the next minute, and no delay occurs (the function performs none). -/
theorem c5_leap_second_policy (tm : Tm) :
    (tm.tm_sec = 60 →
      (F429.rtc_set_time tm).state.time.Seconds = 59 ∧
      (F429.rtc_set_time tm).delayedOneSecond = true) ∧
    (tm.tm_sec ≠ 60 → (F429.rtc_set_time tm).delayedOneSecond = false) ∧
    (100 ≤ tm.tm_year → tm.tm_year ≤ 199 → 0 ≤ tm.tm_mon → tm.tm_mon ≤ 11 →
      1 ≤ tm.tm_mday → tm.tm_mday ≤ 31 → 0 ≤ tm.tm_hour → tm.tm_hour ≤ 23 →
      0 ≤ tm.tm_min → tm.tm_min ≤ 59 →
      ((F429.rtc_set_time tm).state.date.Year : Int) = tm.tm_year - 100 ∧
      ((F429.rtc_set_time tm).state.date.Month : Int) = tm.tm_mon + 1 ∧
      ((F429.rtc_set_time tm).state.date.Date : Int) = tm.tm_mday ∧
      ((F429.rtc_set_time tm).state.time.Hours : Int) = tm.tm_hour ∧
      ((F429.rtc_set_time tm).state.time.Minutes : Int) = tm.tm_min) ∧
    (tm.tm_sec = 60 → 0 ≤ tm.tm_hour → 0 ≤ tm.tm_min →
      mktime tm < 4294967296 →
      (F103.rtc_get_time (F103.rtc_set_time tm)).tm_sec = 0) := by
  refine ⟨?_, ?_, ?_, ?_⟩
  · intro h60
    simp [F429.rtc_set_time, h60]
  · intro hne
    simp [F429.rtc_set_time, hne]
  · intro h1 h2 h3 h4 h5 h6 h7 h8 h9 h10
    simp only [F429.rtc_set_time]
    refine ⟨by omega, by omega, by omega, by omega, by omega⟩
  · intro h60 hh hm hlt
    have hnn : 0 ≤ mktime tm := by
      simp only [mktime]
      omega
    have heq : F103.time (F103.rtc_set_time tm) = mktime tm := by
      simp only [F103.time, F103.rtc_set_time, F103.rtc_set_time_t]
      omega
    have hdvd : mktime tm % 60 = 0 := by
      simp only [mktime] at hnn ⊢
      omega
    simp only [F103.rtc_get_time, heq, localtime]
    omega

/-- Witness for C5 at 2024-06-01 12:00:60. -/
theorem c5_leap_second_policy_witness :
    (F429.rtc_set_time
      { tm_sec := 60, tm_min := 0, tm_hour := 12, tm_mday := 1, tm_mon := 5
        tm_year := 124, tm_wday := 6, tm_yday := 152, tm_isdst := 0
      }).state.time.Seconds = 59 :=
  ((c5_leap_second_policy _).1 rfl).1

/-- C6 counterexample: 2024-06-01 is a Saturday (`rtc_get_week` returns 6),
but setting that date with a caller-supplied weekday field of 0 makes a
subsequent read observe weekday 0: `rtc_set_time` stores `tm_wday + 1` into
the hardware rather than recomputing the weekday from the date, refuting
the claim that a wrong caller weekday cannot become the observed weekday. -/
theorem c6_counterexample :
    (F429.rtc_get_time 0 (F429.rtc_set_time
      { tm_sec := 0, tm_min := 0, tm_hour := 12, tm_mday := 1, tm_mon := 5
        tm_year := 124, tm_wday := 0, tm_yday := 152, tm_isdst := 0
      }).state).tm_wday = 0 ∧
    F429.rtc_get_week 2024 6 1 = 6 := by
  refine ⟨?_, ?_⟩ <;> decide

/-- C6 (amended): on the Calendar-Register backend day-of-year is indeed
never caller-settable — a read derives it from the stored year/month alone,
so changing the caller's `tm_wday`/`tm_yday` fields cannot change the
day-of-year subsequently observed — but the weekday is caller-settable:
`rtc_set_time` stores `tm_wday + 1` and a read reports exactly that value
minus 1, with no recomputation from (year, month, day). -/
theorem c6_derived_fields (tm : Tm) (prev w yd : Int) :
    (0 ≤ tm.tm_wday → tm.tm_wday ≤ 6 →
      (F429.rtc_get_time prev (F429.rtc_set_time tm).state).tm_wday
        = tm.tm_wday) ∧
    (F429.rtc_get_time prev (F429.rtc_set_time
        { tm with tm_wday := w, tm_yday := yd }).state).tm_yday
      = (F429.rtc_get_time prev (F429.rtc_set_time tm).state).tm_yday := by
  constructor
  · intro h0 h6
    simp only [F429.rtc_get_time, F429.rtc_set_time]
    omega
  · rfl

/-- Witness for C6: the 2024-06-01 state with caller weekday 3. -/
theorem c6_derived_fields_witness :
    (F429.rtc_get_time 0 (F429.rtc_set_time
      { tm_sec := 0, tm_min := 0, tm_hour := 12, tm_mday := 1, tm_mon := 5
        tm_year := 124, tm_wday := 3, tm_yday := 152, tm_isdst := 0
      }).state).tm_wday = 3 :=
  (c6_derived_fields _ 0 0 0).1 (by decide) (by decide)

/- ### Claim theorems: C1 -/

set_option maxRecDepth 100000 in
/-- C1 counterexample: 2200-01-01 00:00:00 is a valid calendar date with
year at and beyond the epoch and second 0, but its timestamp (7258118400)
exceeds the 32-bit counter: the stored value wraps modulo 2^32 and reading
back yields a 2063 date, so writing the date and reading it back does not
return it unchanged — the claim's calendar round-trip direction needs the
hardware-representability bound it omits. -/
theorem c1_counterexample :
    validTm
      { tm_sec := 0, tm_min := 0, tm_hour := 0, tm_mday := 1, tm_mon := 0
        tm_year := 300, tm_wday := 3, tm_yday := 0, tm_isdst := 0 } ∧
    F103.rtc_get_time (F103.rtc_set_time
      { tm_sec := 0, tm_min := 0, tm_hour := 0, tm_mday := 1, tm_mon := 0
        tm_year := 300, tm_wday := 3, tm_yday := 0, tm_isdst := 0 }) ≠
      { tm_sec := 0, tm_min := 0, tm_hour := 0, tm_mday := 1, tm_mon := 0
        tm_year := 300, tm_wday := 3, tm_yday := 0, tm_isdst := 0 } := by
  refine ⟨?_, ?_⟩ <;> decide

/-- C1 (amended): on the Counter backend, for every timestamp `t`
representable in the 32-bit counter, converting to a calendar structure and
writing it back (`rtc_set_time`, i.e. `mktime` + counter write) restores
exactly `t`; and every valid calendar date at or after the epoch with
second in 0..59 *whose timestamp fits the 32-bit counter* survives a
write/read round-trip unchanged. -/
theorem c1_roundtrip (t : Int) (tm : Tm) :
    (0 ≤ t → t < 4294967296 →
      F103.time (F103.rtc_set_time (localtime t)) = t) ∧
    (validTm tm → mktime tm < 4294967296 →
      F103.rtc_get_time (F103.rtc_set_time tm) = tm) := by
  constructor
  · intro h0 h1
    have hmk : mktime (localtime t) = t := mktime_localtime t h0
    simp only [F103.time, F103.rtc_set_time, F103.rtc_set_time_t, hmk]
    omega
  · intro hv hlt
    have h0 : 0 ≤ mktime tm := by
      obtain ⟨h1, h2, h3, h4, h5, h6, h7, h8, h9, h10, h11, h12, h13, h14⟩ := hv
      simp only [mktime]
      omega
    have heq : F103.time (F103.rtc_set_time tm) = mktime tm := by
      simp only [F103.time, F103.rtc_set_time, F103.rtc_set_time_t]
      omega
    simp only [F103.rtc_get_time, heq]
    exact localtime_mktime tm hv

set_option maxRecDepth 100000 in
/-- Witness for C1: the timestamp 1717243200 (2024-06-01 12:00:00) and the
matching calendar value round-trip exactly. -/
theorem c1_roundtrip_witness :
    F103.time (F103.rtc_set_time (localtime 1717243200)) = 1717243200 ∧
    F103.rtc_get_time (F103.rtc_set_time
      { tm_sec := 0, tm_min := 0, tm_hour := 12, tm_mday := 1, tm_mon := 5
        tm_year := 124, tm_wday := 6, tm_yday := 152, tm_isdst := 0 }) =
      { tm_sec := 0, tm_min := 0, tm_hour := 12, tm_mday := 1, tm_mon := 5
        tm_year := 124, tm_wday := 6, tm_yday := 152, tm_isdst := 0 } :=
  ⟨(c1_roundtrip 1717243200
      { tm_sec := 0, tm_min := 0, tm_hour := 12, tm_mday := 1, tm_mon := 5
        tm_year := 124, tm_wday := 6, tm_yday := 152, tm_isdst := 0 }).1
      (by decide) (by decide),
   (c1_roundtrip 1717243200
      { tm_sec := 0, tm_min := 0, tm_hour := 12, tm_mday := 1, tm_mon := 5
        tm_year := 124, tm_wday := 6, tm_yday := 152, tm_isdst := 0 }).2
      (by decide) (by decide)⟩

/- ### Claim theorems: C4 -/

/-- Closed form of the day count from the epoch to New Year of `y`:
477 is the number of leap years in 1..1969 (492 multiples of 4, minus 19
multiples of 100, plus 4 multiples of 400). Stated additively to stay in
`Nat`. -/
theorem daysFromYear1970_closed (y : Nat) (hy : 1970 ≤ y) :
    daysFromYear1970 y + 477 + (y - 1) / 100 =
      365 * (y - 1970) + (y - 1) / 4 + (y - 1) / 400 := by
  induction y, hy using Nat.le_induction with
  | base => decide
  | succ y hy ih =>
    rw [daysFromYear1970_succ y hy]
    have hleap := isLeapYear_iff y
    rw [daysInYear_eq]
    rcases hl : IS_LEAP_YEAR y
    · rw [hl] at hleap
      simp only [Bool.false_eq_true, false_iff] at hleap
      rw [if_neg (by simp [hl])]
      omega
    · rw [hl] at hleap
      simp only [true_iff] at hleap
      rw [if_pos (by simp [hl])]
      omega

set_option maxHeartbeats 1600000 in
/-- C4: for every valid Gregorian date with 1970 ≤ year < 2^16 (`year` is a
`uint16_t`; this range spans well over a century), the Kim-Larsson-family
formula `rtc_get_week` — with January/February treated as months 13/14 of
the previous year — agrees with the reference proleptic-Gregorian weekday
computation (days since the epoch plus Thursday offset, mod 7;
0 = Sunday .. 6 = Saturday). -/
theorem c4_weekday (y m d : Nat) (hy : 1970 ≤ y) (hy2 : y ≤ 65535)
    (hm : 1 ≤ m) (hm2 : m ≤ 12) (hd : 1 ≤ d)
    (hd2 : d ≤ monthLen (IS_LEAP_YEAR y) (m - 1)) :
    F429.rtc_get_week y m d = refWeekday y m d := by
  have hdfy := daysFromYear1970_closed y hy
  have hleap := isLeapYear_iff y
  have hd31 : d ≤ 31 := le_trans hd2 (monthLen_le12_any _ _ (by omega))
  rcases hl : IS_LEAP_YEAR y
  · rw [hl] at hleap
    simp only [Bool.false_eq_true, false_iff] at hleap
    have hdfy2 : daysFromYear1970 y + 477 + y / 100
        = 365 * (y - 1970) + y / 4 + y / 400 := by omega
    clear hleap hd2 hy2
    interval_cases m
    · clear hdfy2
      simp only [F429.rtc_get_week, refWeekday, daysFromCivil, hl]
      norm_num [daysBeforeMonth, monthLen, month_day_table]
      omega
    · clear hdfy2
      simp only [F429.rtc_get_week, refWeekday, daysFromCivil, hl]
      norm_num [daysBeforeMonth, monthLen, month_day_table]
      omega
    · clear hdfy
      simp only [F429.rtc_get_week, refWeekday, daysFromCivil, hl]
      norm_num [daysBeforeMonth, monthLen, month_day_table]
      omega
    · clear hdfy
      simp only [F429.rtc_get_week, refWeekday, daysFromCivil, hl]
      norm_num [daysBeforeMonth, monthLen, month_day_table]
      omega
    · clear hdfy
      simp only [F429.rtc_get_week, refWeekday, daysFromCivil, hl]
      norm_num [daysBeforeMonth, monthLen, month_day_table]
      omega
    · clear hdfy
      simp only [F429.rtc_get_week, refWeekday, daysFromCivil, hl]
      norm_num [daysBeforeMonth, monthLen, month_day_table]
      omega
    · clear hdfy
      simp only [F429.rtc_get_week, refWeekday, daysFromCivil, hl]
      norm_num [daysBeforeMonth, monthLen, month_day_table]
      omega
    · clear hdfy
      simp only [F429.rtc_get_week, refWeekday, daysFromCivil, hl]
      norm_num [daysBeforeMonth, monthLen, month_day_table]
      omega
    · clear hdfy
      simp only [F429.rtc_get_week, refWeekday, daysFromCivil, hl]
      norm_num [daysBeforeMonth, monthLen, month_day_table]
      omega
    · clear hdfy
      simp only [F429.rtc_get_week, refWeekday, daysFromCivil, hl]
      norm_num [daysBeforeMonth, monthLen, month_day_table]
      omega
    · clear hdfy
      simp only [F429.rtc_get_week, refWeekday, daysFromCivil, hl]
      norm_num [daysBeforeMonth, monthLen, month_day_table]
      omega
    · clear hdfy
      simp only [F429.rtc_get_week, refWeekday, daysFromCivil, hl]
      norm_num [daysBeforeMonth, monthLen, month_day_table]
      omega
  · rw [hl] at hleap
    simp only [true_iff] at hleap
    have hdfy2 : daysFromYear1970 y + 477 + y / 100 + 1
        = 365 * (y - 1970) + y / 4 + y / 400 := by omega
    clear hleap hd2 hy2
    interval_cases m
    · clear hdfy2
      simp only [F429.rtc_get_week, refWeekday, daysFromCivil, hl]
      norm_num [daysBeforeMonth, monthLen, month_day_table]
      omega
    · clear hdfy2
      simp only [F429.rtc_get_week, refWeekday, daysFromCivil, hl]
      norm_num [daysBeforeMonth, monthLen, month_day_table]
      omega
    · clear hdfy
      simp only [F429.rtc_get_week, refWeekday, daysFromCivil, hl]
      norm_num [daysBeforeMonth, monthLen, month_day_table]
      omega
    · clear hdfy
      simp only [F429.rtc_get_week, refWeekday, daysFromCivil, hl]
      norm_num [daysBeforeMonth, monthLen, month_day_table]
      omega
    · clear hdfy
      simp only [F429.rtc_get_week, refWeekday, daysFromCivil, hl]
      norm_num [daysBeforeMonth, monthLen, month_day_table]
      omega
    · clear hdfy
      simp only [F429.rtc_get_week, refWeekday, daysFromCivil, hl]
      norm_num [daysBeforeMonth, monthLen, month_day_table]
      omega
    · clear hdfy
      simp only [F429.rtc_get_week, refWeekday, daysFromCivil, hl]
      norm_num [daysBeforeMonth, monthLen, month_day_table]
      omega
    · clear hdfy
      simp only [F429.rtc_get_week, refWeekday, daysFromCivil, hl]
      norm_num [daysBeforeMonth, monthLen, month_day_table]
      omega
    · clear hdfy
      simp only [F429.rtc_get_week, refWeekday, daysFromCivil, hl]
      norm_num [daysBeforeMonth, monthLen, month_day_table]
      omega
    · clear hdfy
      simp only [F429.rtc_get_week, refWeekday, daysFromCivil, hl]
      norm_num [daysBeforeMonth, monthLen, month_day_table]
      omega
    · clear hdfy
      simp only [F429.rtc_get_week, refWeekday, daysFromCivil, hl]
      norm_num [daysBeforeMonth, monthLen, month_day_table]
      omega
    · clear hdfy
      simp only [F429.rtc_get_week, refWeekday, daysFromCivil, hl]
      norm_num [daysBeforeMonth, monthLen, month_day_table]
      omega

set_option maxRecDepth 8000 in
/-- Witness for C4: 2024-06-01, a Saturday. -/
theorem c4_weekday_witness :
    F429.rtc_get_week 2024 6 1 = refWeekday 2024 6 1 ∧
    F429.rtc_get_week 2024 6 1 = 6 :=
  ⟨c4_weekday 2024 6 1 (by decide) (by decide) (by decide) (by decide)
    (by decide) (by decide), by decide⟩

/- ### Interactive time-set protocol: `record-imu-to-flash/User/Application/Src/main.c` -/

namespace Proto

/-- Observable effects of `rtc_key_set_time`: `uart_printf` output lines and
the `rtc_set_time` call. -/
inductive ProtoEvent where
  | msg (s : String)
  | setTime (tm : Tm)
  deriving DecidableEq, Repr

/-- The six `int` fields filled by
`sscanf(buffer, "%d-%d-%d %d:%d:%d", &tm_year, &tm_mon, &tm_mday, &tm_hour,
&tm_min, &tm_sec)` when a line is available. -/
structure ParsedLine where
  year : Int
  mon : Int
  mday : Int
  hour : Int
  min : Int
  sec : Int
  deriving DecidableEq, Repr

/-- Environment of a `rtc_key_set_time` run: `tick n` is the value returned
by the `n`-th `HAL_GetTick()` call, `key i` whether `key_scan(0)` returns
`KEY0_PRESS` at iteration `i` of the arming loop, `rx j` the parsed line
delivered by `uart_dmarx_read` + `sscanf` at iteration `j` of the input
loop (`none`: no complete line available yet). -/
structure Env where
  tick : Nat → Nat
  key : Nat → Bool
  rx : Nat → Option ParsedLine

/-- The arming do-while loop:
`do { key = key_scan(0); if (key == KEY0_PRESS) break; }
while (HAL_GetTick() - start_time < 1000);`
`elap i` is the elapsed value read by the loop condition of iteration `i`.
Returns (exit iteration, whether the exit was the KEY0 break). The C loop
has no iteration bound; `fuel` only makes the recursion well-founded. -/
def keyLoop (key : Nat → Bool) (elap : Nat → Nat) : Nat → Nat → Nat × Bool
  | i, 0 => (i, false)
  | i, fuel + 1 =>
    if key i then (i, true)
    else if elap i < 1000 then keyLoop key elap (i + 1) fuel
    else (i, false)

/-- The input do-while loop:
`do { if (uart_dmarx_read(...)) { sscanf(...); break; } }
while (HAL_GetTick() - start_time < 10000);`
Returns (exit iteration, parsed line if the exit was the break). -/
def rxLoop (rx : Nat → Option ParsedLine) (elap : Nat → Nat) :
    Nat → Nat → Nat × Option ParsedLine
  | j, 0 => (j, none)
  | j, fuel + 1 =>
    match rx j with
    | some l => (j, some l)
    | none => if elap j < 10000 then rxLoop rx elap (j + 1) fuel else (j, none)

def promptMsg : String := "Press KEY0 to set time, wait 1 seconds...\r\n"

def inputMsg : String :=
  "Please input date & time, format: YYYY-MM-DD HH:MM:SS, wait 10 seconds...\r\n"

def timeoutMsg : String := "Wait input timeout. \r\n"

def successMsg : String := "Time set. \r\n"

/-- The `struct tm input_time = ⟨0⟩` filled by `sscanf` and then adjusted by
`input_time.tm_year -= 1900; input_time.tm_mon -= 1;` before
`rtc_set_time(&input_time)`; the fields `sscanf` does not touch stay 0. -/
def parsedTm (p : ParsedLine) : Tm :=
  { tm_year := p.year - 1900
    tm_mon := p.mon - 1
    tm_mday := p.mday
    tm_hour := p.hour
    tm_min := p.min
    tm_sec := p.sec
    tm_wday := 0
    tm_yday := 0
    tm_isdst := 0 }

/-- Source: `rtc_key_set_time` — prompt; poll KEY0 for up to 1 s (re-reading
the tick after the loop: a fresh `HAL_GetTick()` call); if the 1 s window
elapsed, return silently; otherwise prompt for a date/time line and poll the
DMA buffer for up to 10 s; if the 10 s window elapsed, report a timeout and
leave the RTC untouched; otherwise adjust the parsed fields by the engine
offsets (year − 1900, month − 1) and call `rtc_set_time`, reporting success.
Tick-read indexing: read 0 = first `start_time`; reads `1+i` = arming loop
conditions; after a break at iteration `n` the next fresh read has index
`n+1`, after a deadline exit at condition `n` it has index `n+2`; then one
read for the second `start_time` and the same pattern for the input loop. -/
def rtc_key_set_time (env : Env) (fuel1 fuel2 : Nat) : List ProtoEvent :=
  let start1 := env.tick 0
  let kl := keyLoop env.key (fun i => env.tick (1 + i) - start1) 0 fuel1
  let idx1 := if kl.2 then kl.1 + 1 else kl.1 + 2
  let e1 := env.tick idx1 - start1
  if 1000 ≤ e1 then [ProtoEvent.msg promptMsg]
  else
    let start2 := env.tick (idx1 + 1)
    let rl := rxLoop env.rx (fun j => env.tick (idx1 + 2 + j) - start2) 0 fuel2
    let idx2 := idx1 + 2 + (if rl.2.isSome then rl.1 else rl.1 + 1)
    let e2 := env.tick idx2 - start2
    if 10000 ≤ e2 then
      [ProtoEvent.msg promptMsg, ProtoEvent.msg inputMsg,
       ProtoEvent.msg timeoutMsg]
    else
      [ProtoEvent.msg promptMsg, ProtoEvent.msg inputMsg,
       ProtoEvent.setTime (parsedTm (rl.2.getD ⟨0, 0, 0, 0, 0, 0⟩)),
       ProtoEvent.msg successMsg]

end Proto

namespace Proto

theorem keyLoop_nokey (key : Nat → Bool) (elap : Nat → Nat)
    (hkey : ∀ i, key i = false) :
    ∀ fuel i, (∃ k, k < fuel ∧ 1000 ≤ elap (i + k)) →
      ∃ n, keyLoop key elap i fuel = (n, false) ∧ 1000 ≤ elap n := by
  intro fuel
  induction fuel with
  | zero =>
    rintro i ⟨k, hk, _⟩
    omega
  | succ fuel ih =>
    rintro i ⟨k, hk, hke⟩
    by_cases he : elap i < 1000
    · have hk0 : k ≠ 0 := by
        intro h0
        rw [h0, Nat.add_zero] at hke
        omega
      obtain ⟨n, hn, hne⟩ := ih (i + 1) ⟨k - 1, by omega,
        by have e : i + 1 + (k - 1) = i + k := by omega
           rw [e]; exact hke⟩
      exact ⟨n, by simp [keyLoop, hkey i, he, hn], hne⟩
    · exact ⟨i, by simp [keyLoop, hkey i, he], by omega⟩

theorem keyLoop_press (key : Nat → Bool) (elap : Nat → Nat) :
    ∀ fuel i ip, i ≤ ip → ip - i < fuel →
      (∀ k, i ≤ k → k < ip → key k = false ∧ elap k < 1000) →
      key ip = true →
      keyLoop key elap i fuel = (ip, true) := by
  intro fuel
  induction fuel with
  | zero =>
    intro i ip h1 h2 h3 h4
    omega
  | succ fuel ih =>
    intro i ip h1 h2 h3 h4
    rcases Nat.eq_or_lt_of_le h1 with heq | hlt
    · subst heq
      simp [keyLoop, h4]
    · have hk := h3 i le_rfl hlt
      have := ih (i + 1) ip (by omega) (by omega)
        (fun k hk1 hk2 => h3 k (by omega) hk2) h4
      simp [keyLoop, hk.1, hk.2, this]

theorem rxLoop_none (rx : Nat → Option ParsedLine) (elap : Nat → Nat)
    (hrx : ∀ j, rx j = none) :
    ∀ fuel j, (∃ k, k < fuel ∧ 10000 ≤ elap (j + k)) →
      ∃ n, rxLoop rx elap j fuel = (n, none) ∧ 10000 ≤ elap n := by
  intro fuel
  induction fuel with
  | zero =>
    rintro j ⟨k, hk, _⟩
    omega
  | succ fuel ih =>
    rintro j ⟨k, hk, hke⟩
    by_cases he : elap j < 10000
    · have hk0 : k ≠ 0 := by
        intro h0
        rw [h0, Nat.add_zero] at hke
        omega
      obtain ⟨n, hn, hne⟩ := ih (j + 1) ⟨k - 1, by omega,
        by have e : j + 1 + (k - 1) = j + k := by omega
           rw [e]; exact hke⟩
      exact ⟨n, by simp [rxLoop, hrx j, he, hn], hne⟩
    · exact ⟨j, by simp [rxLoop, hrx j, he], by omega⟩

theorem rxLoop_line (rx : Nat → Option ParsedLine) (elap : Nat → Nat) :
    ∀ fuel j jp p, j ≤ jp → jp - j < fuel →
      (∀ k, j ≤ k → k < jp → rx k = none ∧ elap k < 10000) →
      rx jp = some p →
      rxLoop rx elap j fuel = (jp, some p) := by
  intro fuel
  induction fuel with
  | zero =>
    intro j jp p h1 h2 h3 h4
    omega
  | succ fuel ih =>
    intro j jp p h1 h2 h3 h4
    rcases Nat.eq_or_lt_of_le h1 with heq | hlt
    · subst heq
      simp [rxLoop, h4]
    · have hk := h3 j le_rfl hlt
      have := ih (j + 1) jp p (by omega) (by omega)
        (fun k hk1 hk2 => h3 k (by omega) hk2) h4
      simp [rxLoop, hk.1, hk.2, this]

end Proto

set_option maxRecDepth 8000 in
/-- C9: protocol atomicity of `rtc_key_set_time`. With a monotone tick
source: (a) if no KEY0 press occurs, the protocol emits only the arming
prompt and returns without any RTC set call; (b) if KEY0 is pressed within
the 1-second window and a line is parsed within the 10-second window, the
calendar setter is called with the parsed fields adjusted by the engine
offsets (year − 1900, month − 1) and success is reported; (c) if KEY0 is
pressed but no line ever arrives, the timeout message is reported and no
set call happens; (d) for the line `2024-06-01 12:00:00`, the timestamp
subsequently reported by the backend (`mktime` over the stored calendar
registers) is exactly 1717243200 — that calendar moment — regardless of the
static day-of-year residue `prev`. -/
theorem c9_protocol (env : Proto.Env) (fuel1 fuel2 : Nat)
    (hmono : ∀ a b, a ≤ b → env.tick a ≤ env.tick b) :
    ((∀ i, env.key i = false) →
      (∃ k, k < fuel1 ∧ 1000 ≤ env.tick (1 + k) - env.tick 0) →
      Proto.rtc_key_set_time env fuel1 fuel2 =
        [Proto.ProtoEvent.msg Proto.promptMsg]) ∧
    (∀ ip jp p,
      (∀ k, k < ip → env.key k = false ∧ env.tick (1 + k) - env.tick 0 < 1000) →
      env.key ip = true → ip < fuel1 →
      env.tick (ip + 1) - env.tick 0 < 1000 →
      (∀ k, k < jp →
        env.rx k = none ∧ env.tick (ip + 3 + k) - env.tick (ip + 2) < 10000) →
      env.rx jp = some p → jp < fuel2 →
      env.tick (ip + 3 + jp) - env.tick (ip + 2) < 10000 →
      Proto.rtc_key_set_time env fuel1 fuel2 =
        [Proto.ProtoEvent.msg Proto.promptMsg,
         Proto.ProtoEvent.msg Proto.inputMsg,
         Proto.ProtoEvent.setTime (Proto.parsedTm p),
         Proto.ProtoEvent.msg Proto.successMsg]) ∧
    (∀ ip,
      (∀ k, k < ip → env.key k = false ∧ env.tick (1 + k) - env.tick 0 < 1000) →
      env.key ip = true → ip < fuel1 →
      env.tick (ip + 1) - env.tick 0 < 1000 →
      (∀ j, env.rx j = none) →
      (∃ k, k < fuel2 ∧ 10000 ≤ env.tick (ip + 3 + k) - env.tick (ip + 2)) →
      Proto.rtc_key_set_time env fuel1 fuel2 =
        [Proto.ProtoEvent.msg Proto.promptMsg,
         Proto.ProtoEvent.msg Proto.inputMsg,
         Proto.ProtoEvent.msg Proto.timeoutMsg]) ∧
    (∀ prev : Int,
      F429.time prev
        (F429.rtc_set_time (Proto.parsedTm ⟨2024, 6, 1, 12, 0, 0⟩)).state =
        1717243200) := by
  refine ⟨?_, ?_, ?_, ?_⟩
  · intro hkey hex
    obtain ⟨n, hkl, hne⟩ := Proto.keyLoop_nokey env.key
      (fun i => env.tick (1 + i) - env.tick 0) hkey fuel1 0 (by simpa using hex)
    have he1 : 1000 ≤ env.tick (n + 2) - env.tick 0 := by
      have := hmono (1 + n) (n + 2) (by omega)
      omega
    simp only [Proto.rtc_key_set_time, hkl]
    simp [he1]
  · intro ip jp p hkpre hkip hipf he1 hrpre hrjp hjpf he2
    have hkl := Proto.keyLoop_press env.key
      (fun i => env.tick (1 + i) - env.tick 0) fuel1 0 ip (by omega) (by omega)
      (fun k _ hk2 => hkpre k hk2) hkip
    simp only [Proto.rtc_key_set_time, hkl]
    have ea : ip + 1 + 2 = ip + 3 := by omega
    have eb : ip + 1 + 1 = ip + 2 := by omega
    simp only [if_true, ea, eb]
    have hrl := Proto.rxLoop_line env.rx
      (fun j => env.tick (ip + 3 + j) - env.tick (ip + 2)) fuel2 0 jp p
      (by omega) (by omega) (fun k _ hk2 => hrpre k hk2) hrjp
    have hne1 : ¬(1000 ≤ env.tick (ip + 1) - env.tick 0) := by omega
    have hne2 : ¬(10000 ≤ env.tick (ip + 3 + jp) - env.tick (ip + 2)) := by
      omega
    simp [hne1, hrl, hne2]
  · intro ip hkpre hkip hipf he1 hrx hex
    have hkl := Proto.keyLoop_press env.key
      (fun i => env.tick (1 + i) - env.tick 0) fuel1 0 ip (by omega) (by omega)
      (fun k _ hk2 => hkpre k hk2) hkip
    simp only [Proto.rtc_key_set_time, hkl]
    have ea : ip + 1 + 2 = ip + 3 := by omega
    have eb : ip + 1 + 1 = ip + 2 := by omega
    simp only [if_true, ea, eb]
    obtain ⟨n, hrl, hne⟩ := Proto.rxLoop_none env.rx
      (fun j => env.tick (ip + 3 + j) - env.tick (ip + 2)) hrx fuel2 0
      (by simpa using hex)
    have hne1 : ¬(1000 ≤ env.tick (ip + 1) - env.tick 0) := by omega
    have he2 : 10000 ≤ env.tick (ip + 3 + (n + 1)) - env.tick (ip + 2) := by
      have := hmono (ip + 3 + n) (ip + 3 + (n + 1)) (by omega)
      omega
    simp only [hne1, if_neg, hrl]
    simp [he2]
  · intro prev
    simp only [F429.time, F429.rtc_get_time, F429.rtc_set_time, Proto.parsedTm,
      mktime]
    norm_num
    decide

set_option maxRecDepth 8000 in
/-- Witness for C9: an environment with no key press and ticks advancing
600 per read exits with only the arming prompt; and the committed
timestamp of the 2024-06-01 12:00:00 line is exact. -/
theorem c9_protocol_witness :
    Proto.rtc_key_set_time ⟨fun n => 600 * n, fun _ => false, fun _ => none⟩ 3 3 =
      [Proto.ProtoEvent.msg Proto.promptMsg] ∧
    F429.time 0 (F429.rtc_set_time (Proto.parsedTm ⟨2024, 6, 1, 12, 0, 0⟩)).state
      = 1717243200 := by
  constructor
  · exact (c9_protocol ⟨fun n => 600 * n, fun _ => false, fun _ => none⟩ 3 3
      (fun a b h => by simp only []; omega)).1 (fun i => rfl)
      ⟨2, by omega, by norm_num⟩
  · exact (c9_protocol ⟨fun n => 600 * n, fun _ => false, fun _ => none⟩ 3 3
      (fun a b h => by simp only []; omega)).2.2.2 0
